import Mathlib

/-!
Verification of the multi-tenant canvas graph engine (CBAM process manager).

The definitions below are a shallow embedding of the TypeScript source:
`useProcessCanvas.ts` (id decoding, edge creation), `ProcessManager.tsx`
(installation switching, process-node construction), the group-management
handlers (`handleCreateGroup`, `updateGroupSize`) and the edge-routing hook
(`applyAutoRouting` and friends).  Numbers carried by node positions are
modelled as `Int`; backend entity ids as `Nat`; the JavaScript failure
sentinel of the id decoder is the natural number 0, exactly as in the code.
-/

namespace CBAM

/-- Decimal value of an ASCII digit character, as used by `parseInt`. -/
def digitVal (c : Char) : Nat := c.toNat - 48

/-- Decimal value of a run of digit characters, as `parseInt` computes it. -/
def digitsVal (ds : List Char) : Nat := ds.foldl (fun acc c => acc * 10 + digitVal c) 0

/-- `true` when a character list does not begin with an ASCII digit, i.e. a
digit run ending right before it is maximal (the regex `\d+` is greedy). -/
def noDigitHead : List Char → Bool
  | [] => true
  | c :: _ => !c.isDigit

/-- One alternative of the regex `(?:product|process|group)-(\d+)` tried at the
current scan position: the literal `kind` (hyphen included) followed by a
maximal nonempty digit run, whose decimal value is returned. -/
def tryKind (kind : String) (l : List Char) : Option Nat :=
  if l.take kind.length = kind.toList then
    if ((l.drop kind.length).takeWhile Char.isDigit).isEmpty then none
    else some (digitsVal ((l.drop kind.length).takeWhile Char.isDigit))
  else none

/-- The regex alternation at one scan position.  The three alternatives are
mutually exclusive here, so the engine's left-to-right alternative order is
reproduced by trying them in sequence. -/
def matchKindsAt (l : List Char) : Option Nat :=
  match tryKind "product-" l with
  | some n => some n
  | none =>
    match tryKind "process-" l with
    | some n => some n
    | none => tryKind "group-" l

/-- Left-to-right scan of `nodeId.match(/(?:product|process|group)-(\d+)/)`:
the regex engine attempts a match at every position until one succeeds. -/
def scanExtract : List Char → Option Nat
  | [] => none
  | c :: rest =>
    match matchKindsAt (c :: rest) with
    | some n => some n
    | none => scanExtract rest

/-- `extractNodeId` from `useProcessCanvas.ts` (lines 164-167): extract the
integer segment after a `product-`/`process-`/`group-` marker; on no match the
code returns the sentinel 0. -/
def extractNodeId (nodeId : String) : Nat := (scanExtract nodeId.toList).getD 0

/-- A local ReactFlow edge as built by `handleEdgeCreate`
(`{id, source, target, type}`; the `data` payload is not needed here). -/
structure GEdge where
  id : String
  source : String
  target : String
  etype : String
deriving DecidableEq

/-- Outcome of the awaited `axiosClient.post(... edge.create ...)` call:
either a response (status code plus the backend-assigned edge id in
`response.data.id`) or a thrown error (network failure, or a non-2xx status
rejected by axios). -/
inductive BackendReply where
  | ok (status : Nat) (newId : Nat)
  | err
deriving DecidableEq

/-- Result of one `handleEdgeCreate` invocation: the edge collection after the
handler returns, and whether a network request was issued at all. -/
structure EdgeCreateResult where
  edges : List GEdge
  networkCalled : Bool
deriving DecidableEq

/-- `handleEdgeCreate` from `useProcessCanvas.ts` (lines 161-233): decode both
node ids; abort before the network call when either decodes to the sentinel 0;
otherwise issue the request and append a local edge only on status 201. -/
def handleEdgeCreate (edges : List GEdge) (source target : String)
    (reply : BackendReply) : EdgeCreateResult :=
  if extractNodeId source = 0 ∨ extractNodeId target = 0 then ⟨edges, false⟩
  else
    match reply with
    | .err => ⟨edges, true⟩
    | .ok status newId =>
      if status = 201 then
        ⟨edges ++ [⟨"e-" ++ toString newId, source, target, "custom"⟩], true⟩
      else ⟨edges, true⟩

lemma takeWhile_digits_append (ds rest : List Char)
    (h2 : ∀ c ∈ ds, c.isDigit = true) (h3 : noDigitHead rest = true) :
    (ds ++ rest).takeWhile Char.isDigit = ds := by
  induction ds with
  | nil =>
    cases rest with
    | nil => rfl
    | cons c cs =>
      simp only [noDigitHead, Bool.not_eq_true'] at h3
      simp [List.takeWhile_cons, h3]
  | cons d ds ih =>
    have hd : d.isDigit = true := h2 d (List.mem_cons_self d ds)
    simp only [List.cons_append, List.takeWhile_cons, hd, if_true]
    rw [ih (fun c hc => h2 c (List.mem_cons_of_mem d hc))]

lemma tryKind_product_self (ds rest : List Char) (h1 : ds ≠ [])
    (h2 : ∀ c ∈ ds, c.isDigit = true) (h3 : noDigitHead rest = true) :
    tryKind "product-" ("product-".toList ++ (ds ++ rest)) = some (digitsVal ds) := by
  unfold tryKind
  have hc : List.take ("product-" : String).length ("product-".toList ++ (ds ++ rest))
      = "product-".toList := rfl
  rw [if_pos hc]
  have hd : (("product-".toList ++ (ds ++ rest)).drop ("product-" : String).length)
      = ds ++ rest := rfl
  rw [hd, takeWhile_digits_append ds rest h2 h3]
  cases ds with
  | nil => exact absurd rfl h1
  | cons d ds => rfl

lemma tryKind_process_self (ds rest : List Char) (h1 : ds ≠ [])
    (h2 : ∀ c ∈ ds, c.isDigit = true) (h3 : noDigitHead rest = true) :
    tryKind "process-" ("process-".toList ++ (ds ++ rest)) = some (digitsVal ds) := by
  unfold tryKind
  have hc : List.take ("process-" : String).length ("process-".toList ++ (ds ++ rest))
      = "process-".toList := rfl
  rw [if_pos hc]
  have hd : (("process-".toList ++ (ds ++ rest)).drop ("process-" : String).length)
      = ds ++ rest := rfl
  rw [hd, takeWhile_digits_append ds rest h2 h3]
  cases ds with
  | nil => exact absurd rfl h1
  | cons d ds => rfl

lemma tryKind_group_self (ds rest : List Char) (h1 : ds ≠ [])
    (h2 : ∀ c ∈ ds, c.isDigit = true) (h3 : noDigitHead rest = true) :
    tryKind "group-" ("group-".toList ++ (ds ++ rest)) = some (digitsVal ds) := by
  unfold tryKind
  have hc : List.take ("group-" : String).length ("group-".toList ++ (ds ++ rest))
      = "group-".toList := rfl
  rw [if_pos hc]
  have hd : (("group-".toList ++ (ds ++ rest)).drop ("group-" : String).length)
      = ds ++ rest := rfl
  rw [hd, takeWhile_digits_append ds rest h2 h3]
  cases ds with
  | nil => exact absurd rfl h1
  | cons d ds => rfl

lemma tryKind_product_on_process (l : List Char) :
    tryKind "product-" ("process-".toList ++ l) = none := by
  unfold tryKind
  rw [if_neg]
  intro h
  have h' : 'p' :: 'r' :: 'o' :: 'c' :: 'e' :: 's' :: 's' :: '-' :: ([] : List Char)
      = "product-".toList := h
  injection h' with h1 h2
  injection h2 with h3 h4
  injection h4 with h5 h6
  injection h6 with h7 _
  exact absurd h7 (by decide)

lemma tryKind_product_on_group (l : List Char) :
    tryKind "product-" ("group-".toList ++ l) = none := by
  unfold tryKind
  rw [if_neg]
  intro h
  have h' : 'g' :: 'r' :: 'o' :: 'u' :: 'p' :: '-' :: List.take 2 l
      = "product-".toList := h
  injection h' with h1 _
  exact absurd h1 (by decide)

lemma tryKind_process_on_group (l : List Char) :
    tryKind "process-" ("group-".toList ++ l) = none := by
  unfold tryKind
  rw [if_neg]
  intro h
  have h' : 'g' :: 'r' :: 'o' :: 'u' :: 'p' :: '-' :: List.take 2 l
      = "process-".toList := h
  injection h' with h1 _
  exact absurd h1 (by decide)

lemma scanExtract_cons (c : Char) (rest : List Char) :
    scanExtract (c :: rest) =
      match matchKindsAt (c :: rest) with
      | some n => some n
      | none => scanExtract rest := rfl

/-- C4: the node-id decoder extracts the integer segment immediately following
a `product-`, `process-` or `group-` marker (for any nonempty digit run
followed by a non-digit), `"product-1700000000000-ab12"` decodes to
1700000000000, and `"group-xyz"` decodes to the failure sentinel 0. -/
theorem extractNodeId_decodes_segment_after_kind :
    (∀ kind ∈ (["product-", "process-", "group-"] : List String),
      ∀ ds rest : List Char, ds ≠ [] → (∀ c ∈ ds, c.isDigit = true) →
        noDigitHead rest = true →
        extractNodeId (String.mk (kind.toList ++ (ds ++ rest))) = digitsVal ds)
    ∧ extractNodeId "product-1700000000000-ab12" = 1700000000000
    ∧ extractNodeId "group-xyz" = 0 := by
  refine ⟨?_, rfl, rfl⟩
  intro kind hkind ds rest h1 h2 h3
  have hkind' : kind = "product-" ∨ kind = "process-" ∨ kind = "group-" := by
    simpa using hkind
  unfold extractNodeId
  rcases hkind' with h | h | h
  · subst h
    have hm : matchKindsAt ("product-".toList ++ (ds ++ rest)) = some (digitsVal ds) := by
      unfold matchKindsAt
      rw [tryKind_product_self ds rest h1 h2 h3]
    have hs : scanExtract ("product-".toList ++ (ds ++ rest)) = some (digitsVal ds) := by
      rw [show ("product-".toList ++ (ds ++ rest))
            = 'p' :: ("roduct-".toList ++ (ds ++ rest)) from rfl]
      rw [scanExtract_cons]
      rw [show ('p' :: ("roduct-".toList ++ (ds ++ rest)))
            = "product-".toList ++ (ds ++ rest) from rfl]
      rw [hm]
    rw [show (String.mk ("product-".toList ++ (ds ++ rest))).toList
          = "product-".toList ++ (ds ++ rest) from rfl, hs]
    rfl
  · subst h
    have hm : matchKindsAt ("process-".toList ++ (ds ++ rest)) = some (digitsVal ds) := by
      unfold matchKindsAt
      rw [tryKind_product_on_process (ds ++ rest)]
      rw [tryKind_process_self ds rest h1 h2 h3]
    have hs : scanExtract ("process-".toList ++ (ds ++ rest)) = some (digitsVal ds) := by
      rw [show ("process-".toList ++ (ds ++ rest))
            = 'p' :: ("rocess-".toList ++ (ds ++ rest)) from rfl]
      rw [scanExtract_cons]
      rw [show ('p' :: ("rocess-".toList ++ (ds ++ rest)))
            = "process-".toList ++ (ds ++ rest) from rfl]
      rw [hm]
    rw [show (String.mk ("process-".toList ++ (ds ++ rest))).toList
          = "process-".toList ++ (ds ++ rest) from rfl, hs]
    rfl
  · subst h
    have hm : matchKindsAt ("group-".toList ++ (ds ++ rest)) = some (digitsVal ds) := by
      unfold matchKindsAt
      rw [tryKind_product_on_group (ds ++ rest)]
      rw [tryKind_process_on_group (ds ++ rest)]
      rw [tryKind_group_self ds rest h1 h2 h3]
    have hs : scanExtract ("group-".toList ++ (ds ++ rest)) = some (digitsVal ds) := by
      rw [show ("group-".toList ++ (ds ++ rest))
            = 'g' :: ("roup-".toList ++ (ds ++ rest)) from rfl]
      rw [scanExtract_cons]
      rw [show ('g' :: ("roup-".toList ++ (ds ++ rest)))
            = "group-".toList ++ (ds ++ rest) from rfl]
      rw [hm]
    rw [show (String.mk ("group-".toList ++ (ds ++ rest))).toList
          = "group-".toList ++ (ds ++ rest) from rfl, hs]
    rfl

theorem extractNodeId_decodes_segment_after_kind_witness :
    extractNodeId (String.mk ("process-".toList ++ (['4', '2'] ++ ['-', 'z']))) = 42 :=
  extractNodeId_decodes_segment_after_kind.1 "process-" (by simp) ['4', '2'] ['-', 'z']
    (by decide) (by decide) (by decide)

/-- C5: `handleEdgeCreate` mutates the live edge collection only when the
backend call returns HTTP 201: a sentinel decode aborts before any network
call, a thrown error leaves the edges untouched, a non-201 status leaves the
edges untouched, and any change is exactly the appending of the single edge
keyed by the backend-assigned id. -/
theorem handleEdgeCreate_mutates_only_on_201 (edges : List GEdge)
    (source target : String) (reply : BackendReply) :
    (extractNodeId source = 0 ∨ extractNodeId target = 0 →
        handleEdgeCreate edges source target reply = ⟨edges, false⟩) ∧
    (reply = BackendReply.err →
        (handleEdgeCreate edges source target reply).edges = edges) ∧
    (∀ status newId, reply = BackendReply.ok status newId → status ≠ 201 →
        (handleEdgeCreate edges source target reply).edges = edges) ∧
    ((handleEdgeCreate edges source target reply).edges ≠ edges →
        ∃ newId, reply = BackendReply.ok 201 newId ∧
          (handleEdgeCreate edges source target reply).edges =
            edges ++ [⟨"e-" ++ toString newId, source, target, "custom"⟩]) := by
  by_cases h0 : extractNodeId source = 0 ∨ extractNodeId target = 0
  · refine ⟨fun _ => ?_, fun _ => ?_, fun st nid _ _ => ?_, fun hne => ?_⟩
    · simp [handleEdgeCreate, h0]
    · simp [handleEdgeCreate, h0]
    · simp [handleEdgeCreate, h0]
    · exact absurd (by simp [handleEdgeCreate, h0]) hne
  · refine ⟨fun h => absurd h h0, ?_, ?_, ?_⟩
    · intro hr
      subst hr
      simp [handleEdgeCreate, h0]
    · intro st nid hr hst
      subst hr
      simp [handleEdgeCreate, h0, hst]
    · intro hne
      cases reply with
      | err => exact absurd (by simp [handleEdgeCreate, h0]) hne
      | ok st nid =>
        by_cases hst : st = 201
        · subst hst
          exact ⟨nid, rfl, by simp [handleEdgeCreate, h0]⟩
        · exact absurd (by simp [handleEdgeCreate, h0, hst]) hne

theorem handleEdgeCreate_mutates_only_on_201_witness :
    (handleEdgeCreate [] "product-1-x" "process-2-y" BackendReply.err).edges
      = ([] : List GEdge) :=
  (handleEdgeCreate_mutates_only_on_201 [] "product-1-x" "process-2-y"
    BackendReply.err).2.1 rfl

/-- C10: the decoder's failure sentinel is the integer 0, so any source id
decoding to 0 — in particular `"product-0-ab12"`, which follows the
documented encoding with backend entity id 0 — makes `handleEdgeCreate`
abort with no network call and no change to the edge collection, whatever
the other endpoint and whatever the backend would have replied. -/
theorem zero_entity_id_decodes_as_failure :
    extractNodeId "product-0-ab12" = 0 ∧
    (∀ (source target : String) (edges : List GEdge) (reply : BackendReply),
      extractNodeId source = 0 →
        handleEdgeCreate edges source target reply = ⟨edges, false⟩) ∧
    ∀ (edges : List GEdge) (target : String) (reply : BackendReply),
      handleEdgeCreate edges "product-0-ab12" target reply = ⟨edges, false⟩ := by
  refine ⟨rfl, ?_, fun _ _ _ => rfl⟩
  intro source target edges reply h
  unfold handleEdgeCreate
  rw [if_pos (Or.inl h)]

theorem zero_entity_id_decodes_as_failure_witness :
    handleEdgeCreate [] "group-0" "process-2-y" BackendReply.err
      = ⟨([] : List GEdge), false⟩ :=
  zero_entity_id_decodes_as_failure.2.1 "group-0" "process-2-y" [] BackendReply.err rfl

/-- A canvas position (`{x, y}`). -/
structure Pos where
  x : Int
  y : Int
deriving DecidableEq

/-- The `style: {width, height}` record carried by group nodes. -/
structure NodeStyle where
  width : Int
  height : Int
deriving DecidableEq

/-- A ReactFlow node as the canvas handlers use it: opaque string id, a `type`
tag, a position, an optional `style` (group geometry) and the optional
`data.nodes` member-id list of a group node. -/
structure GNode where
  id : String
  ntype : String
  position : Pos
  style : Option NodeStyle := none
  memberIds : Option (List String) := none
deriving DecidableEq

/-- `Math.min(...)` over a spread list, as the group handlers call it; the
empty case never occurs on the guarded paths. -/
def jsMin : List Int → Int
  | [] => 0
  | a :: as => as.foldl min a

/-- `Math.max(...)` over a spread list. -/
def jsMax : List Int → Int
  | [] => 0
  | a :: as => as.foldl max a

lemma foldl_min_le_init (as : List Int) : ∀ a : Int, as.foldl min a ≤ a := by
  induction as with
  | nil => intro a; exact le_refl a
  | cons b bs ih =>
    intro a
    exact le_trans (ih (min a b)) (min_le_left a b)

lemma foldl_min_le_mem (as : List Int) : ∀ a x : Int, x ∈ as → as.foldl min a ≤ x := by
  induction as with
  | nil => intro a x hx; cases hx
  | cons b bs ih =>
    intro a x hx
    rcases List.mem_cons.mp hx with h | h
    · subst h
      exact le_trans (foldl_min_le_init bs (min a x)) (min_le_right a x)
    · exact ih (min a b) x h

lemma jsMin_le (l : List Int) (x : Int) (hx : x ∈ l) : jsMin l ≤ x := by
  cases l with
  | nil => cases hx
  | cons a as =>
    rcases List.mem_cons.mp hx with h | h
    · subst h
      exact foldl_min_le_init as x
    · exact foldl_min_le_mem as a x h

lemma le_foldl_max_init (as : List Int) : ∀ a : Int, a ≤ as.foldl max a := by
  induction as with
  | nil => intro a; exact le_refl a
  | cons b bs ih =>
    intro a
    exact le_trans (le_max_left a b) (ih (max a b))

lemma le_foldl_max_mem (as : List Int) : ∀ a x : Int, x ∈ as → x ≤ as.foldl max a := by
  induction as with
  | nil => intro a x hx; cases hx
  | cons b bs ih =>
    intro a x hx
    rcases List.mem_cons.mp hx with h | h
    · subst h
      exact le_trans (le_max_right a x) (le_foldl_max_init bs (max a x))
    · exact ih (max a b) x h

lemma le_jsMax (l : List Int) (x : Int) (hx : x ∈ l) : x ≤ jsMax l := by
  cases l with
  | nil => cases hx
  | cons a as =>
    rcases List.mem_cons.mp hx with h | h
    · subst h
      exact le_foldl_max_init as x
    · exact le_foldl_max_mem as a x h

/-- A backend product entity (`{id, install_id, product_name, ...}`). -/
structure Product where
  id : Nat
  install_id : Nat
  product_name : String
deriving DecidableEq

/-- A backend process entity with its embedded many-to-many product list
(`process.products`). -/
structure Process where
  id : Nat
  process_name : String
  products : List Product
deriving DecidableEq

/-- `relatedProducts` as computed by `handleProcessSelect` / `addProcessNode`:
the products of the supplied list (the current installation's product state)
that are linked to the process. -/
def relatedProducts (products : List Product) (process : Process) : List Product :=
  products.filter (fun product => process.products.any (fun p => p.id == product.id))

/-- `isExternalProcess` as the code computes it: some product among ALL of the
process's linked products (`process.products`) has an installation id
different from the selected installation's id (`p.install_id !==
selectedInstall?.id`; a `null` selection makes every comparison true). -/
def isExternalProcess (process : Process) (selectedInstallId : Option Nat) : Bool :=
  process.products.any (fun p => some p.install_id != selectedInstallId)

/-- The readonly rule as the spec's sentence words it, for comparison with the
code's `isExternalProcess`: the existential ranges over `relatedProducts`
(the intersection of the current installation's product list with the
process's linked products) instead of over all linked products. -/
def isExternalSpecRule (process : Process) (products : List Product)
    (selectedInstallId : Option Nat) : Bool :=
  (relatedProducts products process).any (fun p => some p.install_id != selectedInstallId)

/-- The `data` payload of a process node as built by `handleProcessSelect`
(ProcessManager.tsx lines 363-396) and `addProcessNode`
(useProcessCanvas.ts lines 93-131); both compute it identically. -/
structure ProcessNodeData where
  pid : Nat
  label : String
  product_names : String
  install_id : Option Nat
  is_readonly : Bool
  related_products : List Product
deriving DecidableEq

/-- `handleProcessSelect`: build the process-node payload for the current
canvas.  `product_names` falls back to the unknown label when the joined
string is empty (JavaScript `|| fallback` on the empty string). -/
def handleProcessSelect (process : Process) (products : List Product)
    (selectedInstallId : Option Nat) : ProcessNodeData :=
  { pid := process.id
    label := process.process_name
    product_names :=
      if String.intercalate ", " ((relatedProducts products process).map
          (fun p => p.product_name)) = "" then
        "알 수 없음"
      else
        String.intercalate ", " ((relatedProducts products process).map
          (fun p => p.product_name))
    install_id := selectedInstallId
    is_readonly := isExternalProcess process selectedInstallId
    related_products := relatedProducts products process }

/-- A product stored under installation 1. -/
def productInstall1 : Product := ⟨10, 1, "p1"⟩

/-- A product stored under installation 2. -/
def productInstall2 : Product := ⟨20, 2, "p2"⟩

/-- A process whose linked products span installations 1 and 2. -/
def spanningProcess : Process := ⟨5, "proc", [productInstall1, productInstall2]⟩

/-- C2 counterexample: for the spanning process created on installation 1's
canvas (whose product list holds exactly installation 1's linked product) the
code yields `is_readonly = true`, while the claim demands `false`; the claim's
own `relatedProducts`-based rule evaluates to `false` there, so the code and
the claimed rule disagree at this input. -/
theorem processReadonly_counterexample :
    (handleProcessSelect spanningProcess [productInstall1] (some 1)).is_readonly = true
    ∧ isExternalSpecRule spanningProcess [productInstall1] (some 1) = false :=
  ⟨rfl, rfl⟩

/-- C2 amended: `is_readonly` is the existence of a product among ALL of the
process's linked products (`process.products`, not the intersection with the
current installation's product list) whose installation id differs from the
canvas's active installation id; consequently the spanning process is
read-only on installation 2's canvas AND on installation 1's canvas. -/
theorem processReadonly_over_all_linked_products :
    (∀ (process : Process) (products : List Product) (instId : Option Nat),
      ((handleProcessSelect process products instId).is_readonly = true ↔
        ∃ p ∈ process.products, some p.install_id ≠ instId))
    ∧ (handleProcessSelect spanningProcess [productInstall2] (some 2)).is_readonly = true
    ∧ (handleProcessSelect spanningProcess [productInstall1] (some 1)).is_readonly = true := by
  refine ⟨?_, rfl, rfl⟩
  intro process products instId
  simp [handleProcessSelect, isExternalProcess, List.any_eq_true, bne_iff_ne]

/-- A 50×50 demo node at (100, 100). -/
def demoNodeA : GNode := { id := "a", ntype := "custom", position := ⟨100, 100⟩ }

/-- A 50×50 demo node at (300, 200). -/
def demoNodeB : GNode := { id := "b", ntype := "custom", position := ⟨300, 200⟩ }

/-- `String.prototype.trim()` as a computation on the character list: drop
whitespace from both ends. -/
def jsTrim (s : String) : String :=
  String.mk (((s.toList.dropWhile Char.isWhitespace).reverse.dropWhile
    Char.isWhitespace).reverse)

/-- `handleCreateGroup` (part_001 lines 614-655): with a nonempty trimmed name
and a nonempty set of selected node objects, build the group node at
`(minX − 50, minY − 50)` with style `(maxX − minX + 200, maxY − minY + 200)`
over the selected nodes' current positions, storing the member id list; the
node id is `group-` followed by the `Date.now()` timestamp. -/
def handleCreateGroup (groupName : String) (selectedNodes : List String)
    (nodes : List GNode) (now : Nat) : Option GNode :=
  if jsTrim groupName = "" then none
  else if (nodes.filter (fun n => selectedNodes.contains n.id)).isEmpty then none
  else
    some
      { id := "group-" ++ toString now
        ntype := "group"
        position :=
          ⟨jsMin ((nodes.filter (fun n => selectedNodes.contains n.id)).map
              (fun n => n.position.x)) - 50,
           jsMin ((nodes.filter (fun n => selectedNodes.contains n.id)).map
              (fun n => n.position.y)) - 50⟩
        style :=
          some ⟨jsMax ((nodes.filter (fun n => selectedNodes.contains n.id)).map
                  (fun n => n.position.x))
                - jsMin ((nodes.filter (fun n => selectedNodes.contains n.id)).map
                  (fun n => n.position.x)) + 200,
                jsMax ((nodes.filter (fun n => selectedNodes.contains n.id)).map
                  (fun n => n.position.y))
                - jsMin ((nodes.filter (fun n => selectedNodes.contains n.id)).map
                  (fun n => n.position.y)) + 200⟩
        memberIds := some selectedNodes }

/-- C6: group creation computes min/max over the selected nodes' current
positions and produces a group node at `(minX − 50, minY − 50)` with size
`(maxX − minX + 200, maxY − minY + 200)`; for two selected nodes at (100,100)
and (300,200) this yields position (50,50), width 400, height 300. -/
theorem createGroup_bounding_formula :
    (∀ (groupName : String) (selectedNodes : List String) (nodes : List GNode) (now : Nat),
      jsTrim groupName ≠ "" →
      2 ≤ (nodes.filter (fun n => selectedNodes.contains n.id)).length →
      ∃ g, handleCreateGroup groupName selectedNodes nodes now = some g ∧
        g.position =
          ⟨jsMin ((nodes.filter (fun n => selectedNodes.contains n.id)).map
              (fun n => n.position.x)) - 50,
           jsMin ((nodes.filter (fun n => selectedNodes.contains n.id)).map
              (fun n => n.position.y)) - 50⟩ ∧
        g.style =
          some ⟨jsMax ((nodes.filter (fun n => selectedNodes.contains n.id)).map
                  (fun n => n.position.x))
                - jsMin ((nodes.filter (fun n => selectedNodes.contains n.id)).map
                  (fun n => n.position.x)) + 200,
                jsMax ((nodes.filter (fun n => selectedNodes.contains n.id)).map
                  (fun n => n.position.y))
                - jsMin ((nodes.filter (fun n => selectedNodes.contains n.id)).map
                  (fun n => n.position.y)) + 200⟩ ∧
        g.memberIds = some selectedNodes)
    ∧ handleCreateGroup "G" ["a", "b"] [demoNodeA, demoNodeB] 7 =
        some { id := "group-7", ntype := "group", position := ⟨50, 50⟩,
               style := some ⟨400, 300⟩, memberIds := some ["a", "b"] } := by
  constructor
  · intro groupName selectedNodes nodes now h1 h2
    have hne : (nodes.filter (fun n => selectedNodes.contains n.id)).isEmpty = false := by
      cases hfe : nodes.filter (fun n => selectedNodes.contains n.id) with
      | nil => rw [hfe] at h2; simp at h2
      | cons _ _ => rfl
    simp only [handleCreateGroup, if_neg h1, hne, Bool.false_eq_true, if_false]
    exact ⟨_, rfl, rfl, rfl, rfl⟩
  · rfl

theorem createGroup_bounding_formula_witness :
    ∃ g, handleCreateGroup "G" ["a", "b"] [demoNodeA, demoNodeB] 7 = some g ∧
      g.position = ⟨50, 50⟩ ∧
      g.style = some ⟨400, 300⟩ ∧
      g.memberIds = some ["a", "b"] :=
  createGroup_bounding_formula.1 "G" ["a", "b"] [demoNodeA, demoNodeB] 7
    (by decide) (by decide)

/-- The local UI state touched by the group-creation flow: the node
collection, the group modal flag, and a trace of backend requests (the group
flow of part_001 is entirely local and never issues one). -/
structure GroupUIState where
  nodes : List GNode
  showGroupModal : Bool
  backendRequests : List String
deriving DecidableEq

/-- `createGroupFromSelectedNodes` (part_001 lines 606-612): with fewer than
two selected ids it alerts and returns unchanged; otherwise it opens the
group modal.  Neither branch touches the nodes or issues a backend call. -/
def createGroupFromSelectedNodes (selectedNodes : List String)
    (s : GroupUIState) : GroupUIState :=
  if selectedNodes.length < 2 then s
  else { s with showGroupModal := true }

/-- C7: with fewer than 2 selected node ids, group creation blocks locally:
the state is returned unchanged, so no group node is added, the node
collection is untouched, the modal (the only path to `handleCreateGroup`)
stays closed, and the backend-request trace is untouched (no network call). -/
theorem createGroup_lt2_blocks (selectedNodes : List String) (s : GroupUIState)
    (h : selectedNodes.length < 2) :
    createGroupFromSelectedNodes selectedNodes s = s ∧
    (createGroupFromSelectedNodes selectedNodes s).nodes = s.nodes ∧
    (createGroupFromSelectedNodes selectedNodes s).backendRequests = s.backendRequests := by
  refine ⟨?_, ?_, ?_⟩ <;> simp [createGroupFromSelectedNodes, h]

theorem createGroup_lt2_blocks_witness :
    createGroupFromSelectedNodes ["only-one"] ⟨[demoNodeA], false, []⟩
      = ⟨[demoNodeA], false, []⟩ :=
  (createGroup_lt2_blocks ["only-one"] ⟨[demoNodeA], false, []⟩ (by decide)).1

/-- The member nodes of a group, as `updateGroupSize` locates them: nodes of
the collection whose id is in the member list and which are not themselves
groups. -/
def groupMembers (memberList : List String) (prevNodes : List GNode) : List GNode :=
  prevNodes.filter (fun n => memberList.contains n.id && n.ntype != "group")

/-- `updateGroupSize` (part_001 lines 658-689): locate the group node, bail
out unchanged when it is missing, not a group, carries no member list, or has
no remaining member nodes; otherwise rewrite the group node's position and
style to the members' bounding box with the fixed margins. -/
def updateGroupSize (groupId : String) (prevNodes : List GNode) : List GNode :=
  match prevNodes.find? (fun n => n.id == groupId) with
  | none => prevNodes
  | some groupNode =>
    if groupNode.ntype ≠ "group" then prevNodes
    else
      match groupNode.memberIds with
      | none => prevNodes
      | some memberList =>
        if (groupMembers memberList prevNodes).isEmpty then prevNodes
        else
          prevNodes.map (fun n =>
            if n.id == groupId then
              { n with
                position :=
                  ⟨jsMin ((groupMembers memberList prevNodes).map
                      (fun m => m.position.x)) - 50,
                   jsMin ((groupMembers memberList prevNodes).map
                      (fun m => m.position.y)) - 50⟩
                style :=
                  some ⟨jsMax ((groupMembers memberList prevNodes).map
                          (fun m => m.position.x))
                        - jsMin ((groupMembers memberList prevNodes).map
                          (fun m => m.position.x)) + 200,
                        jsMax ((groupMembers memberList prevNodes).map
                          (fun m => m.position.y))
                        - jsMin ((groupMembers memberList prevNodes).map
                          (fun m => m.position.y)) + 200⟩ }
            else n)

lemma find?_map_of_id_pres (f : GNode → GNode) (p : GNode → Bool)
    (hp : ∀ n, p (f n) = p n) :
    ∀ (l : List GNode) (g : GNode), l.find? p = some g → (l.map f).find? p = some (f g) := by
  intro l
  induction l with
  | nil => intro g h; exact absurd h (by simp)
  | cons a as ih =>
    intro g h
    by_cases ha : p a = true
    · rw [List.find?_cons_of_pos _ ha] at h
      injection h with h
      subst h
      rw [List.map_cons, List.find?_cons_of_pos _ (by rw [hp]; exact ha)]
    · have ha' : p a = false := by simpa using ha
      rw [List.find?_cons_of_neg _ (by simp [ha'])] at h
      rw [List.map_cons, List.find?_cons_of_neg _ (by simp [hp, ha'])]
      exact ih g h

/-- C9: after `updateGroupSize` runs on a group node carrying a member list:
with at least one non-group member the group's position becomes
`(minX − 50, minY − 50)` over the members' positions, its style becomes
`(maxX − minX + 200, maxY − minY + 200)`, the node count is preserved (the
group is not deleted) and the resulting box contains every member position
with the fixed 50-unit top/left margin; with zero remaining members the node
collection — hence the group's position and size — is unchanged. -/
theorem updateGroupSize_bounding (prevNodes : List GNode) (groupId : String)
    (g : GNode) (memberList : List String)
    (hfind : prevNodes.find? (fun n => n.id == groupId) = some g)
    (htype : g.ntype = "group")
    (hmem : g.memberIds = some memberList) :
    (groupMembers memberList prevNodes = [] →
        updateGroupSize groupId prevNodes = prevNodes) ∧
    (groupMembers memberList prevNodes ≠ [] →
        (updateGroupSize groupId prevNodes).length = prevNodes.length ∧
        ∃ g', (updateGroupSize groupId prevNodes).find? (fun n => n.id == groupId)
            = some g' ∧
          g'.position =
            ⟨jsMin ((groupMembers memberList prevNodes).map (fun m => m.position.x)) - 50,
             jsMin ((groupMembers memberList prevNodes).map (fun m => m.position.y)) - 50⟩ ∧
          g'.style =
            some ⟨jsMax ((groupMembers memberList prevNodes).map (fun m => m.position.x))
                  - jsMin ((groupMembers memberList prevNodes).map (fun m => m.position.x))
                  + 200,
                  jsMax ((groupMembers memberList prevNodes).map (fun m => m.position.y))
                  - jsMin ((groupMembers memberList prevNodes).map (fun m => m.position.y))
                  + 200⟩ ∧
          ∀ n ∈ groupMembers memberList prevNodes,
            g'.position.x + 50 ≤ n.position.x ∧
            g'.position.y + 50 ≤ n.position.y ∧
            n.position.x ≤ g'.position.x
              + (jsMax ((groupMembers memberList prevNodes).map (fun m => m.position.x))
                 - jsMin ((groupMembers memberList prevNodes).map (fun m => m.position.x))
                 + 200) ∧
            n.position.y ≤ g'.position.y
              + (jsMax ((groupMembers memberList prevNodes).map (fun m => m.position.y))
                 - jsMin ((groupMembers memberList prevNodes).map (fun m => m.position.y))
                 + 200)) := by
  have hpg0 := List.find?_some hfind
  have hpg : (g.id == groupId) = true := hpg0
  constructor
  · intro h
    simp only [updateGroupSize, hfind]
    rw [if_neg (by simp [htype])]
    simp only [hmem]
    rw [if_pos (by rw [h]; rfl)]
  · intro h
    have hemp : (groupMembers memberList prevNodes).isEmpty = false := by
      cases hc : groupMembers memberList prevNodes with
      | nil => exact absurd hc h
      | cons _ _ => rfl
    have hform : updateGroupSize groupId prevNodes
        = prevNodes.map (fun n =>
            if n.id == groupId then
              { n with
                position :=
                  ⟨jsMin ((groupMembers memberList prevNodes).map
                      (fun m => m.position.x)) - 50,
                   jsMin ((groupMembers memberList prevNodes).map
                      (fun m => m.position.y)) - 50⟩
                style :=
                  some ⟨jsMax ((groupMembers memberList prevNodes).map
                          (fun m => m.position.x))
                        - jsMin ((groupMembers memberList prevNodes).map
                          (fun m => m.position.x)) + 200,
                        jsMax ((groupMembers memberList prevNodes).map
                          (fun m => m.position.y))
                        - jsMin ((groupMembers memberList prevNodes).map
                          (fun m => m.position.y)) + 200⟩ }
            else n) := by
      simp only [updateGroupSize, hfind]
      rw [if_neg (by simp [htype])]
      simp only [hmem]
      rw [if_neg (by simp [hemp])]
    refine ⟨by rw [hform]; exact List.length_map _ _, ?_⟩
    have hfind' := find?_map_of_id_pres
      (fun n =>
        if n.id == groupId then
          { n with
            position :=
              ⟨jsMin ((groupMembers memberList prevNodes).map
                  (fun m => m.position.x)) - 50,
               jsMin ((groupMembers memberList prevNodes).map
                  (fun m => m.position.y)) - 50⟩
            style :=
              some ⟨jsMax ((groupMembers memberList prevNodes).map
                      (fun m => m.position.x))
                    - jsMin ((groupMembers memberList prevNodes).map
                      (fun m => m.position.x)) + 200,
                    jsMax ((groupMembers memberList prevNodes).map
                      (fun m => m.position.y))
                    - jsMin ((groupMembers memberList prevNodes).map
                      (fun m => m.position.y)) + 200⟩ }
        else n)
      (fun n => n.id == groupId)
      (fun n => by by_cases hn : (n.id == groupId) = true <;> simp [hn])
      prevNodes g hfind
    refine ⟨_, by rw [hform]; exact hfind', ?_, ?_, ?_⟩
    · simp [hpg]
    · simp [hpg]
    · intro n hn
      have hx : n.position.x ∈ (groupMembers memberList prevNodes).map
          (fun m => m.position.x) := List.mem_map_of_mem _ hn
      have hy : n.position.y ∈ (groupMembers memberList prevNodes).map
          (fun m => m.position.y) := List.mem_map_of_mem _ hn
      have hminx := jsMin_le _ _ hx
      have hmaxx := le_jsMax _ _ hx
      have hminy := jsMin_le _ _ hy
      have hmaxy := le_jsMax _ _ hy
      simp only [hpg, if_pos]
      refine ⟨by omega, by omega, by omega, by omega⟩

/-- A group node at the origin whose member list holds the id of `demoNodeA`. -/
def demoGroup : GNode :=
  { id := "g1", ntype := "group", position := ⟨0, 0⟩,
    style := some ⟨200, 100⟩, memberIds := some ["a"] }

theorem updateGroupSize_bounding_witness :
    (updateGroupSize "g1" [demoGroup, demoNodeA]).length = 2 ∧
    ∃ g', (updateGroupSize "g1" [demoGroup, demoNodeA]).find? (fun n => n.id == "g1")
        = some g' ∧
      g'.position = ⟨50, 50⟩ ∧
      g'.style = some ⟨200, 200⟩ ∧
      ∀ n ∈ groupMembers ["a"] [demoGroup, demoNodeA],
        g'.position.x + 50 ≤ n.position.x ∧
        g'.position.y + 50 ≤ n.position.y ∧
        n.position.x ≤ g'.position.x + 200 ∧
        n.position.y ≤ g'.position.y + 200 :=
  (updateGroupSize_bounding [demoGroup, demoNodeA] "g1" demoGroup ["a"]
    (by decide) rfl rfl).2 (by decide)

/-- A ReactFlow edge as the routing hook rewrites it: identity fields, the
rendered edge `type`, the `data.routingType` tag and the `data.avoidNodes`
flag set by smart routing. -/
structure REdge where
  id : String
  source : String
  target : String
  etype : String
  routingType : String
  avoidNodes : Bool := false
deriving DecidableEq

/-- The `EdgeRoutingResult` of the routing hook: the rewritten edge list and
the reported complexity tag. -/
structure RoutingResult where
  edges : List REdge
  complexity : String
deriving DecidableEq

/-- `applyBezierRouting`: every edge becomes a bezier edge; complexity is
always reported low. -/
def applyBezierRouting (edges : List REdge) : RoutingResult :=
  ⟨edges.map (fun e => { e with etype := "bezierEdge", routingType := "bezier" }),
   "low"⟩

/-- `applySmartEdgeRouting`: an edge whose endpoint nodes are both found and
whose centers are closer than 100 units (squared distance below 10000, which
is exactly `sqrt < 100` on the reals) becomes a smart edge avoiding nodes;
other edges are left unchanged.  Complexity: high above 20 edges, medium
above 10, else low. -/
def applySmartEdgeRouting (edges : List REdge) (nodes : List GNode) : RoutingResult :=
  ⟨edges.map (fun e =>
      match nodes.find? (fun n => n.id == e.source),
            nodes.find? (fun n => n.id == e.target) with
      | some s, some t =>
        if (t.position.x - s.position.x) * (t.position.x - s.position.x)
            + (t.position.y - s.position.y) * (t.position.y - s.position.y) < 10000 then
          { e with etype := "smartEdge", routingType := "smart", avoidNodes := true }
        else e
      | _, _ => e),
   if edges.length > 20 then "high" else if edges.length > 10 then "medium" else "low"⟩

/-- `applyOrthogonalRouting`: every edge becomes an orthogonal edge;
complexity: high above 15 edges, medium above 8, else low. -/
def applyOrthogonalRouting (edges : List REdge) : RoutingResult :=
  ⟨edges.map (fun e => { e with etype := "orthogonalEdge", routingType := "orthogonal" }),
   if edges.length > 15 then "high" else if edges.length > 8 then "medium" else "low"⟩

/-- `applyAutoRouting` (the hook in AuthForm.tsx lines 841-854): select the
strategy purely by edge count — at most 5 edges bezier, at most 15 smart,
otherwise orthogonal. -/
def applyAutoRouting (edges : List REdge) (nodes : List GNode) : RoutingResult :=
  if edges.length ≤ 5 then applyBezierRouting edges
  else if edges.length ≤ 15 then applySmartEdgeRouting edges nodes
  else applyOrthogonalRouting edges

/-- A demo edge for the boundary instances. -/
def demoREdge : REdge :=
  { id := "e", source := "s", target := "t", etype := "custom",
    routingType := "default" }

/-- C8: `applyAutoRouting` selects its strategy purely by edge count — length
≤ 5 bezier, 6–15 smart, > 15 orthogonal — and at the boundaries exactly 5
edges give bezier, exactly 15 give smart, and 16 give orthogonal. -/
theorem autoRouting_selects_by_edge_count :
    (∀ (edges : List REdge) (nodes : List GNode),
      (edges.length ≤ 5 → applyAutoRouting edges nodes = applyBezierRouting edges) ∧
      (6 ≤ edges.length → edges.length ≤ 15 →
          applyAutoRouting edges nodes = applySmartEdgeRouting edges nodes) ∧
      (15 < edges.length → applyAutoRouting edges nodes = applyOrthogonalRouting edges))
    ∧ applyAutoRouting (List.replicate 5 demoREdge) []
        = applyBezierRouting (List.replicate 5 demoREdge)
    ∧ applyAutoRouting (List.replicate 15 demoREdge) []
        = applySmartEdgeRouting (List.replicate 15 demoREdge) []
    ∧ applyAutoRouting (List.replicate 16 demoREdge) []
        = applyOrthogonalRouting (List.replicate 16 demoREdge) := by
  refine ⟨?_, rfl, rfl, rfl⟩
  intro edges nodes
  refine ⟨?_, ?_, ?_⟩
  · intro h
    simp [applyAutoRouting, h]
  · intro h6 h15
    have h5 : ¬ edges.length ≤ 5 := by omega
    simp [applyAutoRouting, h5, h15]
  · intro h
    have h5 : ¬ edges.length ≤ 5 := by omega
    have h15 : ¬ edges.length ≤ 15 := by omega
    simp [applyAutoRouting, h5, h15]

theorem autoRouting_selects_by_edge_count_witness :
    applyAutoRouting (List.replicate 10 demoREdge) []
      = applySmartEdgeRouting (List.replicate 10 demoREdge) [] :=
  (autoRouting_selects_by_edge_count.1 (List.replicate 10 demoREdge) []).2.1
    (by decide) (by decide)

/-- A per-installation canvas snapshot `{nodes, edges}`. -/
structure Canvas where
  nodes : List GNode
  edges : List GEdge
deriving DecidableEq

/-- Key lookup in the installation-keyed canvas map (`installCanvases[id]`). -/
def lookupC : List (Nat × Canvas) → Nat → Option Canvas
  | [], _ => none
  | (k', v) :: rest, k => if k = k' then some v else lookupC rest k

/-- The object-spread update `{...prev, [id]: snapshot}`: replace the binding
in place when the key exists, append it otherwise. -/
def upsertC : List (Nat × Canvas) → Nat → Canvas → List (Nat × Canvas)
  | [], k, v => [(k, v)]
  | (k', v') :: rest, k, v =>
    if k = k' then (k, v) :: rest else (k', v') :: upsertC rest k v

/-- The ProcessManager state the installation switch touches: the live
node/edge collections, the per-installation snapshot map, and the active
installation id. -/
structure ManagerState where
  nodes : List GNode
  edges : List GEdge
  installCanvases : List (Nat × Canvas)
  activeInstallId : Option Nat
deriving DecidableEq

/-- The save step at the head of `handleInstallSelect`, guarded by the
JavaScript truthiness check `if (activeInstallId)` (ProcessManager.tsx:257):
both `null` AND the number 0 are falsy, so the outgoing canvas is committed
only when an installation with a nonzero id is active — an installation with
id 0 never gets its canvas saved. -/
def commitActive (s : ManagerState) : List (Nat × Canvas) :=
  match s.activeInstallId with
  | some a =>
    if a = 0 then s.installCanvases
    else upsertC s.installCanvases a ⟨s.nodes, s.edges⟩
  | none => s.installCanvases

/-- `handleInstallSelect` (ProcessManager.tsx lines 253-276): queue the save
of the outgoing canvas, set the new active id, then restore from
`installCanvases[install.id]` — read from the PRE-save map, because the React
state setter has only been queued and the closure still sees the old map. -/
def handleInstallSelect (s : ManagerState) (installId : Nat) : ManagerState :=
  { nodes := ((lookupC s.installCanvases installId).getD ⟨[], []⟩).nodes
    edges := ((lookupC s.installCanvases installId).getD ⟨[], []⟩).edges
    installCanvases := commitActive s
    activeInstallId := some installId }

/-- The `useEffect([nodes, edges, activeInstallId])` of ProcessManager.tsx
lines 238-245: after every committed render, stamp the live canvas into the
map under the active id.  React flushes this before the next gesture.  The
guard is again the truthiness check `if (activeInstallId)`
(ProcessManager.tsx:239), so the stamp is skipped both when no installation
is active and when the active installation's id is the falsy number 0. -/
def effectSync (s : ManagerState) : ManagerState :=
  match s.activeInstallId with
  | some a =>
    if a = 0 then s
    else { s with installCanvases := upsertC s.installCanvases a ⟨s.nodes, s.edges⟩ }
  | none => s

/-- One observable installation-selection step: the click handler followed by
the effect flush. -/
def selectInstall (s : ManagerState) (installId : Nat) : ManagerState :=
  effectSync (handleInstallSelect s installId)

/-- Adding a node on the active canvas (`addProductNode` and friends append
to `nodes`), followed by the effect flush.  The alert guard
`if (!selectedInstall)` checks the truthiness of the selected-install OBJECT,
which is truthy whenever one is selected — even one whose id is 0 — so the
append happens for any `some` id while the effect stamp still skips id 0. -/
def addNodeOp (s : ManagerState) (n : GNode) : ManagerState :=
  match s.activeInstallId with
  | none => s
  | some _ => effectSync { s with nodes := s.nodes ++ [n] }

/-- Adding an edge on the active canvas, followed by the effect flush. -/
def addEdgeOp (s : ManagerState) (e : GEdge) : ManagerState :=
  match s.activeInstallId with
  | none => s
  | some _ => effectSync { s with edges := s.edges ++ [e] }

/-- The gestures relevant to installation switching. -/
inductive CanvasOp where
  | select (installId : Nat)
  | addNode (n : GNode)
  | addEdge (e : GEdge)

/-- Apply one gesture. -/
def applyOp (s : ManagerState) : CanvasOp → ManagerState
  | .select i => selectInstall s i
  | .addNode n => addNodeOp s n
  | .addEdge e => addEdgeOp s e

/-- Run a gesture sequence. -/
def runOps (s : ManagerState) (ops : List CanvasOp) : ManagerState :=
  ops.foldl applyOp s

/-- The mount state: empty canvas, empty snapshot map, no active
installation. -/
def initialState : ManagerState := ⟨[], [], [], none⟩

/-- The map entry for the active id agrees with the live canvas whenever the
active id is truthy — the invariant the (guarded) effect flush maintains
between gestures.  For the falsy id 0 the effect never stamps, so nothing is
guaranteed there. -/
def synced (s : ManagerState) : Bool :=
  match s.activeInstallId with
  | none => true
  | some a =>
    if a = 0 then true
    else decide (lookupC s.installCanvases a = some ⟨s.nodes, s.edges⟩)

lemma lookupC_upsertC_self (m : List (Nat × Canvas)) (k : Nat) (v : Canvas) :
    lookupC (upsertC m k v) k = some v := by
  induction m with
  | nil => simp [upsertC, lookupC]
  | cons a rest ih =>
    obtain ⟨k', v'⟩ := a
    by_cases h : k = k'
    · simp [upsertC, h, lookupC]
    · simp [upsertC, h, lookupC, ih]

lemma lookupC_upsertC_ne (m : List (Nat × Canvas)) (k k₂ : Nat) (v : Canvas)
    (h : k₂ ≠ k) : lookupC (upsertC m k v) k₂ = lookupC m k₂ := by
  induction m with
  | nil => simp [upsertC, lookupC, h]
  | cons a rest ih =>
    obtain ⟨k', v'⟩ := a
    by_cases h1 : k = k'
    · subst h1
      simp [upsertC, lookupC, h]
    · by_cases h2 : k₂ = k'
      · simp [upsertC, lookupC, h1, h2]
      · simp [upsertC, lookupC, h1, h2, ih]

lemma upsertC_lookup_eq (m : List (Nat × Canvas)) (k : Nat) (v : Canvas)
    (h : lookupC m k = some v) : upsertC m k v = m := by
  induction m with
  | nil => exact absurd h (by simp [lookupC])
  | cons a rest ih =>
    obtain ⟨k', v'⟩ := a
    by_cases h1 : k = k'
    · have hv : v' = v := by
        have := h
        simp [lookupC, h1] at this
        exact this
      subst h1
      subst hv
      simp [upsertC]
    · have h' : lookupC rest k = some v := by
        have := h
        simpa [lookupC, h1] using this
      simp [upsertC, h1, ih h']

lemma effectSync_nodes (s : ManagerState) : (effectSync s).nodes = s.nodes := by
  unfold effectSync
  cases h : s.activeInstallId with
  | none => rfl
  | some a =>
    by_cases h0 : a = 0 <;> simp [h0]

lemma effectSync_edges (s : ManagerState) : (effectSync s).edges = s.edges := by
  unfold effectSync
  cases h : s.activeInstallId with
  | none => rfl
  | some a =>
    by_cases h0 : a = 0 <;> simp [h0]

lemma synced_effectSync (s : ManagerState) : synced (effectSync s) = true := by
  unfold effectSync
  cases h : s.activeInstallId with
  | none => simp [synced, h]
  | some a =>
    by_cases h0 : a = 0
    · simp [synced, h, h0]
    · simp [synced, h, h0, lookupC_upsertC_self]

lemma synced_applyOp (s : ManagerState) (op : CanvasOp) :
    synced (applyOp s op) = true := by
  cases op with
  | select i =>
    show synced (selectInstall s i) = true
    exact synced_effectSync _
  | addNode n =>
    show synced (addNodeOp s n) = true
    unfold addNodeOp
    cases h : s.activeInstallId with
    | none => simp [synced, h]
    | some a => exact synced_effectSync _
  | addEdge e =>
    show synced (addEdgeOp s e) = true
    unfold addEdgeOp
    cases h : s.activeInstallId with
    | none => simp [synced, h]
    | some a => exact synced_effectSync _

lemma synced_runOps_aux : ∀ (ops : List CanvasOp) (s : ManagerState),
    synced s = true → synced (runOps s ops) = true := by
  intro ops
  induction ops with
  | nil => intro s hs; exact hs
  | cons op rest ih => intro s hs; exact ih (applyOp s op) (synced_applyOp s op)

lemma synced_runOps (ops : List CanvasOp) :
    synced (runOps initialState ops) = true :=
  synced_runOps_aux ops initialState rfl

lemma select_restore_of_synced (s : ManagerState) (hs : synced s = true) (x : Nat) :
    (selectInstall s x).nodes = ((lookupC (commitActive s) x).getD ⟨[], []⟩).nodes ∧
    (selectInstall s x).edges = ((lookupC (commitActive s) x).getD ⟨[], []⟩).edges := by
  have hkey : lookupC s.installCanvases x = lookupC (commitActive s) x := by
    unfold commitActive
    cases h : s.activeInstallId with
    | none => rfl
    | some a =>
      dsimp only
      by_cases h0 : a = 0
      · rw [if_pos h0]
      · rw [if_neg h0]
        by_cases hx : x = a
        · subst hx
          have hsx : lookupC s.installCanvases x = some ⟨s.nodes, s.edges⟩ := by
            unfold synced at hs
            rw [h] at hs
            dsimp only at hs
            rw [if_neg h0] at hs
            exact of_decide_eq_true hs
          rw [hsx, lookupC_upsertC_self]
        · rw [lookupC_upsertC_ne _ _ _ _ hx]
  constructor
  · show (effectSync (handleInstallSelect s x)).nodes = _
    rw [effectSync_nodes]
    show ((lookupC s.installCanvases x).getD ⟨[], []⟩).nodes = _
    rw [hkey]
  · show (effectSync (handleInstallSelect s x)).edges = _
    rw [effectSync_edges]
    show ((lookupC s.installCanvases x).getD ⟨[], []⟩).edges = _
    rw [hkey]

lemma reselect_noop_of_synced (s : ManagerState) (hs : synced s = true) (a : Nat)
    (h0 : a ≠ 0) (ha : s.activeInstallId = some a) : selectInstall s a = s := by
  obtain ⟨n, e, m, act⟩ := s
  have ha' : act = some a := ha
  subst ha'
  have hsx : lookupC m a = some ⟨n, e⟩ := by
    unfold synced at hs
    dsimp only at hs
    rw [if_neg h0] at hs
    exact of_decide_eq_true hs
  have hmap : upsertC m a ⟨n, e⟩ = m := upsertC_lookup_eq m a ⟨n, e⟩ hsx
  show effectSync (handleInstallSelect ⟨n, e, m, some a⟩ a) = ⟨n, e, m, some a⟩
  unfold handleInstallSelect commitActive
  dsimp only
  simp only [hsx, Option.getD_some, if_neg h0, hmap]
  unfold effectSync
  dsimp only
  simp only [if_neg h0, hmap]

/-- The product node of the restore scenario, at its original position. -/
def demoProductNode : GNode :=
  { id := "product-1700000000000-ab12", ntype := "product", position := ⟨123, 45⟩ }

/-- C1 counterexample: the claim's restore guarantee fails at installation
id 0, which the JavaScript truthiness guards treat as falsy — select
installation 0, add one product node, switch to installation 2, switch back
to 0: the save is skipped both times, `installCanvases[0]` is never written,
and the canvas comes back empty instead of holding the node. -/
theorem installSwitch_restore_counterexample :
    (runOps initialState
      [CanvasOp.select 0, CanvasOp.addNode demoProductNode,
       CanvasOp.select 2, CanvasOp.select 0]).nodes = [] ∧
    (runOps initialState
      [CanvasOp.select 0, CanvasOp.addNode demoProductNode,
       CanvasOp.select 2, CanvasOp.select 0]).nodes ≠ [demoProductNode] :=
  ⟨rfl, by decide⟩

/-- C1 amended: for every gesture sequence, immediately after selecting
installation `x` the live node/edge collections equal the snapshot last
COMMITTED for `x` (the entry of the post-save map), or the empty canvas when
no snapshot was ever committed for `x`; because the save and stamp guards
`if (activeInstallId)` treat the id 0 as falsy, nothing is ever committed for
installation id 0 and changes made on its canvas are lost on switch-back
(see the counterexample), while for A(id=1), B(id=2) the scenario — add one
product node on A, switch to B, switch back to A — restores exactly that
node, unchanged in position. -/
theorem installSwitch_restores_snapshot :
    (∀ (ops : List CanvasOp) (x : Nat),
      (selectInstall (runOps initialState ops) x).nodes =
        ((lookupC (commitActive (runOps initialState ops)) x).getD ⟨[], []⟩).nodes ∧
      (selectInstall (runOps initialState ops) x).edges =
        ((lookupC (commitActive (runOps initialState ops)) x).getD ⟨[], []⟩).edges)
    ∧ (runOps initialState
        [CanvasOp.select 1, CanvasOp.addNode demoProductNode,
         CanvasOp.select 2, CanvasOp.select 1]).nodes = [demoProductNode]
    ∧ (runOps initialState
        [CanvasOp.select 1, CanvasOp.addNode demoProductNode,
         CanvasOp.select 2, CanvasOp.select 1]).edges = [] := by
  refine ⟨?_, rfl, rfl⟩
  intro ops x
  exact select_restore_of_synced _ (synced_runOps ops) x

/-- C3 counterexample: re-selecting the already-active installation id is
NOT a no-op when that id is 0 — with installation 0 active and one node on
the canvas, re-selecting 0 skips the save (0 is falsy), restores the
never-written `installCanvases[0]` as the empty canvas, and wipes the node. -/
theorem reselect_zero_id_counterexample :
    (selectInstall (runOps initialState
        [CanvasOp.select 0, CanvasOp.addNode demoProductNode]) 0).nodes = [] ∧
    selectInstall (runOps initialState
        [CanvasOp.select 0, CanvasOp.addNode demoProductNode]) 0
      ≠ runOps initialState [CanvasOp.select 0, CanvasOp.addNode demoProductNode] :=
  ⟨rfl, by decide⟩

/-- C3 amended: re-selecting the already-active installation id is a no-op
for every NONZERO active id — for any reachable state the live node
collection, the live edge collection and the snapshot map are all unchanged
(the whole state is equal).  For the falsy id 0 the save guard skips the
commit and the restore wipes the canvas (see the counterexample). -/
theorem reselect_active_installation_noop (ops : List CanvasOp) (a : Nat)
    (h0 : a ≠ 0)
    (ha : (runOps initialState ops).activeInstallId = some a) :
    selectInstall (runOps initialState ops) a = runOps initialState ops :=
  reselect_noop_of_synced _ (synced_runOps ops) a h0 ha

theorem reselect_active_installation_noop_witness :
    selectInstall (runOps initialState [CanvasOp.select 1]) 1
      = runOps initialState [CanvasOp.select 1] :=
  reselect_active_installation_noop [CanvasOp.select 1] 1 (by decide) rfl

end CBAM
